import Mathlib

/-!
The program go-pluginserver: the startup, dump and accept-loop logic of `main.go`

A shallow embedding of `main.go`.  Every function of the file becomes a pure
function from the outcomes of the external calls it makes (flag values, the
result of `os.Remove`, of `net.Listen`, of `listener.Accept`, of
`filepath.Glob`, of `GetPluginInfo`) to the ordered trace of effects it
performs.  Go strings are Lean strings; the characters that matter here
(`/` and `.so`) are ASCII, so bytes and characters coincide on them.
-/

namespace PluginServer

/-! ## Data model -/

/-- The five command-line flags of `main.go` (lines 23-29), after `flag.Parse`. -/
structure Flags where
  kongPrefix : String
  dump : String
  dumpAllPlugins : Bool
  pluginsDir : String
  showVersion : Bool
  deriving DecidableEq, Repr

/-- The values the flags take when none is given on the command line. -/
def Flags.defaults : Flags :=
  ⟨"/usr/local/kong", "", false, "", false⟩

/-- Modelled from the spec: the generic dynamic value of the wire format
(string, number, boolean, null, ordered sequence, string-keyed mapping); the
Go type behind it is not declared in `main.go`. -/
inductive Value where
  | null : Value
  | bool (b : Bool) : Value
  | num (n : Int) : Value
  | str (s : String) : Value
  | seq (xs : List Value) : Value
  | map (kvs : List (String × Value)) : Value

/-- Modelled from the spec: the record `PluginInfo` (its declaration is in a
file of the package other than `main.go`): name, implemented phases, priority,
version and configuration schema. -/
structure PluginInfo where
  Name : String
  Phases : List String
  Priority : Int
  Version : String
  Schema : Value

/-- The Go zero value `PluginInfo{}`: what `info := PluginInfo{}` and every
slot of `make([]PluginInfo, n)` hold before `GetPluginInfo` fills them. -/
def PluginInfo.zero : PluginInfo :=
  ⟨"", [], 0, "", Value.null⟩

/-- An element of the `[]interface{}` handshake slice: an integer or a string. -/
inductive Item where
  | int (n : Int) : Item
  | str (s : String) : Item
  deriving DecidableEq, Repr

/-- An argument of a `log.Printf` call.  `kongPrefixPtr` is the flag pointer
`kongPrefix` itself, which line 116 passes undereferenced. -/
inductive LogArg where
  | str (s : String) : LogArg
  | kongPrefixPtr : LogArg
  deriving DecidableEq, Repr

/-- An error returned by `os.Remove`, with the verdict of `os.IsNotExist` on it. -/
structure OsError where
  msg : String
  isNotExist : Bool
  deriving DecidableEq, Repr

/-- How the goroutine `go rpc.ServeCodec(rpcCodec)` of a connection ends:
it is still serving, the peer closed the connection, an error ended
`ServeCodec`, or it panicked.  Nothing in `main.go` recovers a panic, and a Go
program ends when a goroutine panics unrecovered; `panicked k` is a panic that
happens while the accept loop waits in its `k+1`-th call to `Accept` after the
one that returned this connection. -/
inductive SessionEnd where
  | serving : SessionEnd
  | closed : SessionEnd
  | failed (err : String) : SessionEnd
  | panicked (afterAccepts : Nat) : SessionEnd
  deriving DecidableEq, Repr

/-- A connection returned by a successful `listener.Accept`, together with the
two things that can go wrong on it afterwards: the error (if any) of the
handshake `enc.Encode`, and the way its RPC session ends. -/
structure Accepted where
  conn : Nat
  encodeErr : Option String
  session : SessionEnd
  deriving DecidableEq, Repr

/-- The successive results of `listener.Accept()`: an error message or a
connection.  A list that holds no error is a listener on which `Accept` blocks
for ever once the listed connections have arrived. -/
abbrev Listener := List (Except String Accepted)

/-- The observable effects of the program, in the order they happen. -/
inductive Event where
  | usage : Event
  | exit (code : Nat) : Event
  | printVersion (version runtimeVersion : String) : Event
  | newServer : Event
  | getPluginInfo (name : String) : Event
  | log (format : String) (args : List LogArg) : Event
  | encodeMsgpackStdout (info : PluginInfo) : Event
  | encodeJsonStdout (infos : List PluginInfo) : Event
  | glob (dir pattern : String) : Event
  | remove (path : String) : Event
  | listen (network address : String) : Event
  | registerName (name : String) : Event
  | accept : Event
  | encodeConn (conn : Nat) (frame : List Item) : Event
  | serverCodec (conn : Nat) : Event
  | goServeCodec (conn : Nat) : Event

/-- The outcomes of the external calls the program makes, for a server state of
type `S`.  `newServer`, `pluginsDir` and `GetPluginInfo` belong to the package
but are declared outside `main.go`, so they are parameters here: `GetPluginInfo
s name info` returns the new server state, the record left behind the pointer
`info`, and the error (if any).  `globJoin dir pat` is the result of
`filepath.Glob(path.Join(dir, pat))`. -/
structure Env (S : Type) where
  pid : Int
  ppid : Int
  runtimeVersion : String
  newServer : Flags → S
  pluginsDir : S → String
  GetPluginInfo : S → String → PluginInfo → S × PluginInfo × Option String
  globJoin : String → String → Except String (List String)
  remove : String → Option OsError
  listen : String → String → Except String Listener

/-- What a function that contains the accept loop did: its effects, and whether
it returned (`false`: it is blocked in `Accept` for ever). -/
structure LoopResult where
  events : List Event
  returned : Bool

/-- What the accept loop did while its session goroutines ran beside it: its
effects, whether it returned, and whether the process was ended by a panic of
a session goroutine (`crashed`), which ends the loop without a return. -/
structure ProcessResult where
  events : List Event
  returned : Bool
  crashed : Bool

/-! ## The Go library functions used by `main.go` -/

/-- Go `strings.HasSuffix`. -/
def HasSuffix (s suffix : String) : Bool :=
  suffix.data.isSuffixOf s.data

/-- Go `strings.TrimSuffix`: `s` without the trailing `suffix`, or `s` itself
when it does not end with `suffix`. -/
def TrimSuffix (s suffix : String) : String :=
  if HasSuffix s suffix then
    String.mk (s.data.take (s.data.length - suffix.data.length))
  else s

/-- First loop of Go `path.Base`: drop the trailing slashes. -/
def stripTrailingSlashes (p : List Char) : List Char :=
  p.rdropWhile (fun c => c == '/')

/-- Second step of Go `path.Base`: `path[lastSlash(path)+1:]` when there is a
slash, the whole path otherwise: the characters after the last slash. -/
def afterLastSlash (p : List Char) : List Char :=
  p.rtakeWhile (fun c => c != '/')

/-- Go `path.Base`: the last element of the path; `"."` for the empty path,
`"/"` for a path of slashes only. -/
def Base (path : String) : String :=
  if path.data = [] then "."
  else
    let p := afterLastSlash (stripTrailingSlashes path.data)
    if p = [] then "/" else String.mk p

/-! ## `main.go` -/

/-- The package variable `version` (line 20). -/
def version : String := "development"

/-- The package variable `socket`, as assigned by `init` (line 35). -/
def socket (f : Flags) : String :=
  f.kongPrefix ++ "/" ++ "go_pluginserver.sock"

/-- The function `init` (lines 33-41), after `flag.Parse` produced `f`: usage
and exit status 2 when both the prefix and the `-dump-plugin-info` target are
empty, nothing otherwise. -/
def init (f : Flags) : List Event :=
  if f.kongPrefix == "" && f.dump == "" then [Event.usage, Event.exit 2] else []

/-- The function `printVersion` (lines 43-45). -/
def printVersion {S : Type} (env : Env S) : List Event :=
  [Event.printVersion version env.runtimeVersion]

/-- The function `dumpInfo` (lines 47-64): one `GetPluginInfo` on a zero record,
its error logged, the record encoded to standard output whatever happened. -/
def dumpInfo {S : Type} (env : Env S) (f : Flags) : List Event :=
  let s := env.newServer f
  let r := env.GetPluginInfo s f.dump PluginInfo.zero
  [Event.newServer, Event.getPluginInfo f.dump]
    ++ (match r.2.2 with
        | some err => [Event.log "%s" [LogArg.str err]]
        | none => [])
    ++ [Event.encodeMsgpackStdout r.2.1]

/-- The plugin name `dumpAll` derives from a discovered path (line 78). -/
def pluginName (pluginPath : String) : String :=
  TrimSuffix (Base pluginPath) ".so"

/-- The `for` loop of `dumpAll` (lines 77-85) from server state `s` over the
remaining paths: the slots of `infos` it leaves behind, and its effects.  Every
slot starts as the zero record; an error is logged and the loop continues. -/
def dumpAllLoop {S : Type} (env : Env S) : S → List String → List PluginInfo × List Event
  | _, [] => ([], [])
  | s, pluginPath :: rest =>
    let r := env.GetPluginInfo s (pluginName pluginPath) PluginInfo.zero
    let tl := dumpAllLoop env r.1 rest
    (r.2.1 :: tl.1,
     [Event.getPluginInfo (pluginName pluginPath)]
       ++ (match r.2.2 with
           | some err =>
             [Event.log "can't load Plugin %s: %s" [LogArg.str (pluginName pluginPath), LogArg.str err]]
           | none => [])
       ++ tl.2)

/-- The function `dumpAll` (lines 66-90). -/
def dumpAll {S : Type} (env : Env S) (f : Flags) : List Event :=
  let s := env.newServer f
  match env.globJoin (env.pluginsDir s) "/*.so" with
  | Except.error err =>
    [Event.newServer, Event.glob (env.pluginsDir s) "/*.so",
     Event.log "can't get plugin names from %s: %s" [LogArg.str (env.pluginsDir s), LogArg.str err]]
  | Except.ok pluginPaths =>
    let r := dumpAllLoop env s pluginPaths
    [Event.newServer, Event.glob (env.pluginsDir s) "/*.so"] ++ r.2 ++ [Event.encodeJsonStdout r.1]

/-- The handshake value of line 106: `[]interface{}{2, "serverPid", os.Getpid()}`. -/
def handshake (pid : Int) : List Item :=
  [Item.int 2, Item.str "serverPid", Item.int pid]

/-- The function `runServer` (lines 92-111) on a listener: each iteration calls
`Accept` (event `accept`); on an error the function returns; on a connection it
encodes the handshake (the result of `Encode` is discarded), builds the server
codec and starts `rpc.ServeCodec` as a goroutine.  On the exhausted listener
the call to `Accept` never comes back. -/
def runServer (pid : Int) : Listener → LoopResult
  | [] => ⟨[Event.accept], false⟩
  | Except.error _ :: _ => ⟨[Event.accept], true⟩
  | Except.ok c :: rest =>
    let r := runServer pid rest
    ⟨[Event.accept, Event.encodeConn c.conn (handshake pid), Event.serverCodec c.conn,
      Event.goServeCodec c.conn] ++ r.events, r.returned⟩

/-- The delay of the panic of a session, if it panics. -/
def panicDelay : SessionEnd → Option Nat
  | SessionEnd.panicked k => some k
  | _ => none

/-- The function `runServer` (lines 92-111) together with the goroutines it
starts at line 109.  `pending` holds, for each session started so far that
will panic, the number of further `Accept` calls that come back before it
does.  A panic that is due ends the process while the loop waits in `Accept`;
on the exhausted listener the loop waits for ever, so every pending panic
happens.  A session that ends in any other way leaves the loop alone, and so
does the discarded result of the handshake `Encode`. -/
def runServerSessions (pid : Int) : List Nat → Listener → ProcessResult
  | pending, [] => ⟨[Event.accept], false, !pending.isEmpty⟩
  | pending, r :: rest =>
    if pending.contains 0 then ⟨[Event.accept], false, true⟩
    else
      match r with
      | Except.error _ => ⟨[Event.accept], true, false⟩
      | Except.ok c =>
        let tl := runServerSessions pid
          (pending.map (fun k => k - 1) ++ (panicDelay c.session).toList) rest
        ⟨[Event.accept, Event.encodeConn c.conn (handshake pid), Event.serverCodec c.conn,
          Event.goServeCodec c.conn] ++ tl.events, tl.returned, tl.crashed⟩

/-- The function `startServer` (lines 113-128). -/
def startServer {S : Type} (env : Env S) (f : Flags) : LoopResult :=
  let removeErr := env.remove (socket f)
  if removeErr.isSome && !(removeErr.any OsError.isNotExist) then
    ⟨[Event.remove (socket f),
      Event.log "removing \"%s\": %s"
        [LogArg.kongPrefixPtr, LogArg.str ((removeErr.map OsError.msg).getD "")]], true⟩
  else
    match env.listen "unix" (socket f) with
    | Except.error err =>
      ⟨[Event.remove (socket f), Event.listen "unix" (socket f),
        Event.log "listen(\"%s\"): %s" [LogArg.str (socket f), LogArg.str err]], true⟩
    | Except.ok listener =>
      let r := runServer env.pid listener
      ⟨[Event.remove (socket f), Event.listen "unix" (socket f), Event.newServer,
        Event.registerName "plugin"] ++ r.events, r.returned⟩

/-- The function `isParentAlive` (lines 130-132). -/
def isParentAlive {S : Type} (env : Env S) : Bool :=
  env.ppid != 1

/-- The function `boolToString` (lines 134-140). -/
def boolToString (b : Bool) : String :=
  if b then "true" else "false"

/-- The function `main` (lines 142-174). -/
def main {S : Type} (env : Env S) (f : Flags) : List Event :=
  if f.showVersion == true then printVersion env ++ [Event.exit 0]
  else if f.dump != "" then dumpInfo env f ++ [Event.exit 0]
  else if f.dumpAllPlugins then dumpAll env f ++ [Event.exit 0]
  else if socket f != "" then
    [Event.log ("Socket is " ++ socket f) [],
     Event.log ("Parent is alive? " ++ boolToString (isParentAlive env)) []]
      ++ (startServer env f).events
  else []

/-- Whether a trace ends the process with `os.Exit`. -/
def exited (t : List Event) : Bool :=
  t.any (fun e => match e with
    | Event.exit _ => true
    | _ => false)

/-- The whole process: `init` runs first, and `main` only if `init` did not exit. -/
def program {S : Type} (env : Env S) (f : Flags) : List Event :=
  if exited (init f) then init f else init f ++ main env f

/-! ## Observations on traces and listeners -/

/-- The connections a listener hands out before its first `Accept` error. -/
def acceptedBefore : Listener → List Accepted
  | [] => []
  | Except.error _ :: _ => []
  | Except.ok c :: rest => c :: acceptedBefore rest

/-- Whether some `Accept` on the listener fails. -/
def hasAcceptError (l : Listener) : Bool :=
  l.any (fun r => match r with
    | Except.error _ => true
    | Except.ok _ => false)

/-- What the accept loop can see of an `Accept` result: the connection, or
nothing for an error.  The write and session outcomes are erased. -/
def acceptShape (r : Except String Accepted) : Option Nat :=
  match r with
  | Except.error _ => none
  | Except.ok c => some c.conn

/-- The frames written to connections, in order: connection and value. -/
def connWrites (t : List Event) : List (Nat × List Item) :=
  t.filterMap (fun e => match e with
    | Event.encodeConn c v => some (c, v)
    | _ => none)

/-- The connections for which a session goroutine was started, in order. -/
def sessions (t : List Event) : List Nat :=
  t.filterMap (fun e => match e with
    | Event.goServeCodec c => some c
    | _ => none)

/-- The number of calls to `Accept`. -/
def acceptCalls (t : List Event) : Nat :=
  t.countP (fun e => match e with
    | Event.accept => true
    | _ => false)

/-- The plugin names passed to `GetPluginInfo`, in order. -/
def getPluginInfoCalls (t : List Event) : List String :=
  t.filterMap (fun e => match e with
    | Event.getPluginInfo n => some n
    | _ => none)

/-- The sequences written to standard output by the JSON encoder, in order. -/
def jsonWrites (t : List Event) : List (List PluginInfo) :=
  t.filterMap (fun e => match e with
    | Event.encodeJsonStdout infos => some infos
    | _ => none)

/-- The records written to standard output by the MessagePack encoder, in order. -/
def msgpackWrites (t : List Event) : List PluginInfo :=
  t.filterMap (fun e => match e with
    | Event.encodeMsgpackStdout info => some info
    | _ => none)

/-- The exit statuses passed to `os.Exit`, in order. -/
def exitCodes (t : List Event) : List Nat :=
  t.filterMap (fun e => match e with
    | Event.exit code => some code
    | _ => none)

/-- The number of calls to `newServer`; each dump starts with one. -/
def newServerCalls (t : List Event) : Nat :=
  t.countP (fun e => match e with
    | Event.newServer => true
    | _ => false)

/-- The `log.Printf` calls, in order: format and arguments. -/
def logCalls (t : List Event) : List (String × List LogArg) :=
  t.filterMap (fun e => match e with
    | Event.log format args => some (format, args)
    | _ => none)

/-- The effects that only `startServer` and `runServer` perform: removing the
socket file, binding the listener, registering the service, accepting. -/
def isServerEvent (e : Event) : Bool :=
  match e with
  | Event.remove _ => true
  | Event.listen _ _ => true
  | Event.registerName _ => true
  | Event.accept => true
  | Event.encodeConn _ _ => true
  | Event.serverCodec _ => true
  | Event.goServeCodec _ => true
  | _ => false

/-- The successive results of the `GetPluginInfo` calls of the `dumpAll` loop,
from server state `s`: for each path the record left in its slot and the error. -/
def callOutcomes {S : Type} (env : Env S) : S → List String → List (PluginInfo × Option String)
  | _, [] => []
  | s, pluginPath :: rest =>
    let r := env.GetPluginInfo s (pluginName pluginPath) PluginInfo.zero
    r.2 :: callOutcomes env r.1 rest

/-- Whether a `GetPluginInfo` call succeeded. -/
def succeeded (o : PluginInfo × Option String) : Bool :=
  o.2.isNone

/-- The `log.Printf` call of line 82 for a path and the outcome of its
`GetPluginInfo` call: one line when the call failed, none otherwise. -/
def loadFailureLog (po : String × PluginInfo × Option String) :
    Option (String × List LogArg) :=
  po.2.2.map (fun err =>
    ("can't load Plugin %s: %s", [LogArg.str (pluginName po.1), LogArg.str err]))

/-! ## A concrete environment -/

/-- A stand-in for `GetPluginInfo` on a stateless server: the plugin `bad`
fails and leaves the record untouched, any other plugin succeeds. -/
def demoGetPluginInfo (s : Unit) (name : String) (info : PluginInfo) :
    Unit × PluginInfo × Option String :=
  if name = "bad" then (s, info, some "plugin: symbol Schema not found")
  else (s, ⟨name, ["access"], 1, "0.1", Value.map []⟩, none)

/-- A listener that yields two connections (the handshake write fails on the
second, and its session ends in an error) and then an `Accept` error. -/
def demoListener : Listener :=
  [Except.ok ⟨1, none, SessionEnd.serving⟩,
   Except.ok ⟨2, some "broken pipe", SessionEnd.failed "unexpected EOF"⟩,
   Except.error "use of closed network connection",
   Except.ok ⟨3, none, SessionEnd.serving⟩]

/-- The same connections with other outcomes of the handshake writes and of the
sessions, none of them a panic. -/
def demoListenerOther : Listener :=
  [Except.ok ⟨1, some "broken pipe", SessionEnd.failed "decode error"⟩,
   Except.ok ⟨2, none, SessionEnd.closed⟩,
   Except.error "closed",
   Except.ok ⟨3, none, SessionEnd.failed "EOF"⟩]

/-- A listener without `Accept` error whose first session panics at once. -/
def panicListener : Listener :=
  [Except.ok ⟨1, none, SessionEnd.panicked 0⟩, Except.ok ⟨2, none, SessionEnd.serving⟩]

/-- The same listener with a first session that keeps serving. -/
def calmListener : Listener :=
  [Except.ok ⟨1, none, SessionEnd.serving⟩, Except.ok ⟨2, none, SessionEnd.serving⟩]

/-- An environment: process 4242, a plugins directory holding `good.so` and
`bad.so`, no stale socket file, and `demoListener` behind the socket. -/
def demoEnv : Env Unit :=
  ⟨4242, 77, "go1.13", fun _ => (), fun _ => "/plugins", demoGetPluginInfo,
   fun _ _ => Except.ok ["/plugins/good.so", "/plugins/bad.so"],
   fun _ => some ⟨"no such file or directory", true⟩,
   fun _ _ => Except.ok demoListener⟩

/-- The same environment with a socket file that cannot be removed. -/
def demoEnvNoRemove : Env Unit :=
  ⟨4242, 77, "go1.13", fun _ => (), fun _ => "/plugins", demoGetPluginInfo,
   fun _ _ => Except.ok ["/plugins/good.so", "/plugins/bad.so"],
   fun _ => some ⟨"permission denied", false⟩,
   fun _ _ => Except.ok demoListener⟩

/-- The same environment with an address that cannot be bound. -/
def demoEnvNoListen : Env Unit :=
  ⟨4242, 77, "go1.13", fun _ => (), fun _ => "/plugins", demoGetPluginInfo,
   fun _ _ => Except.ok ["/plugins/good.so", "/plugins/bad.so"],
   fun _ => none,
   fun _ _ => Except.error "address already in use"⟩

/-! ## The accept loop -/

theorem runServer_events (pid : Int) (l : Listener) :
    (runServer pid l).events =
      (acceptedBefore l).flatMap (fun c =>
        [Event.accept, Event.encodeConn c.conn (handshake pid), Event.serverCodec c.conn,
         Event.goServeCodec c.conn]) ++ [Event.accept] := by
  induction l with
  | nil => rfl
  | cons r rest ih =>
    cases r with
    | error e => rfl
    | ok c => simp [runServer, acceptedBefore, ih]

theorem runServer_returned (pid : Int) (l : Listener) :
    (runServer pid l).returned = hasAcceptError l := by
  induction l with
  | nil => rfl
  | cons r rest ih =>
    cases r with
    | error e => rfl
    | ok c => simpa [runServer, hasAcceptError] using ih

theorem acceptedBefore_shape (l l' : Listener) (h : l.map acceptShape = l'.map acceptShape) :
    (acceptedBefore l).map Accepted.conn = (acceptedBefore l').map Accepted.conn := by
  induction l generalizing l' with
  | nil =>
    cases l' with
    | nil => rfl
    | cons r' rest' => simp at h
  | cons r rest ih =>
    cases l' with
    | nil => simp at h
    | cons r' rest' =>
      simp only [List.map_cons, List.cons.injEq] at h
      cases r <;> cases r' <;> simp [acceptShape] at h
      · rfl
      · simp [acceptedBefore, h.1, ih rest' h.2]

theorem hasAcceptError_shape (l l' : Listener) (h : l.map acceptShape = l'.map acceptShape) :
    hasAcceptError l = hasAcceptError l' := by
  induction l generalizing l' with
  | nil =>
    cases l' with
    | nil => rfl
    | cons r' rest' => simp at h
  | cons r rest ih =>
    cases l' with
    | nil => simp at h
    | cons r' rest' =>
      simp only [List.map_cons, List.cons.injEq] at h
      have := ih rest' h.2
      cases r <;> cases r' <;> simp [acceptShape] at h <;>
        simp_all [hasAcceptError]

theorem connWrites_runServer (pid : Int) (l : Listener) :
    connWrites (runServer pid l).events =
      (acceptedBefore l).map (fun c => (c.conn, handshake pid)) := by
  induction l with
  | nil => rfl
  | cons r rest ih =>
    cases r with
    | error e => rfl
    | ok c => simpa [runServer, acceptedBefore, connWrites] using ih

theorem sessions_runServer (pid : Int) (l : Listener) :
    sessions (runServer pid l).events = (acceptedBefore l).map Accepted.conn := by
  induction l with
  | nil => rfl
  | cons r rest ih =>
    cases r with
    | error e => rfl
    | ok c => simpa [runServer, acceptedBefore, sessions] using ih

theorem acceptCalls_runServer (pid : Int) (l : Listener) :
    acceptCalls (runServer pid l).events = (acceptedBefore l).length + 1 := by
  induction l with
  | nil => rfl
  | cons r rest ih =>
    cases r with
    | error e => rfl
    | ok c =>
      simp only [runServer, acceptedBefore, acceptCalls, List.length_cons] at ih ⊢
      simp [List.countP_cons, ih]

theorem acceptedBefore_split (l : Listener) :
    ∃ rest, l = (acceptedBefore l).map Except.ok ++ rest ∧
      (rest = [] ∨ ∃ e rest', rest = Except.error e :: rest') := by
  induction l with
  | nil => exact ⟨[], rfl, Or.inl rfl⟩
  | cons r tl ih =>
    cases r with
    | error e => exact ⟨Except.error e :: tl, rfl, Or.inr ⟨e, tl, rfl⟩⟩
    | ok c =>
      obtain ⟨rest, h1, h2⟩ := ih
      refine ⟨rest, ?_, h2⟩
      simp only [acceptedBefore, List.map_cons, List.cons_append]
      rw [← h1]

theorem hasAcceptError_iff (l : Listener) :
    hasAcceptError l = true ↔ ∃ e, Except.error e ∈ l := by
  induction l with
  | nil => simp [hasAcceptError]
  | cons r tl ih =>
    cases r with
    | error e => simp [hasAcceptError]
    | ok c =>
      have : hasAcceptError (Except.ok c :: tl) = hasAcceptError tl := by
        simp [hasAcceptError]
      rw [this, ih]
      simp

theorem runServer_mem (pid : Int) (l : Listener) (e : Event)
    (h : e ∈ (runServer pid l).events) :
    e = Event.accept ∨ ∃ c, e = Event.encodeConn c (handshake pid) ∨
      e = Event.serverCodec c ∨ e = Event.goServeCodec c := by
  induction l with
  | nil => simp [runServer] at h; exact Or.inl h
  | cons r tl ih =>
    cases r with
    | error err => simp [runServer] at h; exact Or.inl h
    | ok c =>
      simp only [runServer, List.cons_append, List.nil_append, List.mem_cons] at h
      rcases h with h | h | h | h | h
      · exact Or.inl h
      · exact Or.inr ⟨c.conn, Or.inl h⟩
      · exact Or.inr ⟨c.conn, Or.inr (Or.inl h)⟩
      · exact Or.inr ⟨c.conn, Or.inr (Or.inr h)⟩
      · exact ih h

theorem accept_mem_runServer (pid : Int) (l : Listener) :
    Event.accept ∈ (runServer pid l).events := by
  rw [runServer_events]
  simp

/-- C1: for every listener, the accept loop performs, for each connection
accepted before the first `Accept` error and in this order, the `Accept`, one
`Encode` of the handshake onto that connection, the construction of the server
codec and the start of `rpc.ServeCodec`; and the frames it writes are exactly
one `(2, "serverPid", pid)` per accepted connection, nothing else. -/
theorem C1_handshake_once_before_dispatch (pid : Int) (l : Listener) :
    (runServer pid l).events =
        (acceptedBefore l).flatMap (fun c =>
          [Event.accept, Event.encodeConn c.conn (handshake pid), Event.serverCodec c.conn,
           Event.goServeCodec c.conn]) ++ [Event.accept]
      ∧ connWrites (runServer pid l).events =
        (acceptedBefore l).map
          (fun c => (c.conn, [Item.int 2, Item.str "serverPid", Item.int pid])) := by
  refine ⟨runServer_events pid l, ?_⟩
  simpa [handshake] using connWrites_runServer pid l

theorem runServerSessions_quiet (pid : Int) (l : Listener)
    (h : ∀ c ∈ acceptedBefore l, panicDelay c.session = none) :
    runServerSessions pid [] l
      = ⟨(runServer pid l).events, (runServer pid l).returned, false⟩ := by
  induction l with
  | nil => rfl
  | cons r rest ih =>
    cases r with
    | error e => rfl
    | ok c =>
      have hc : panicDelay c.session = none := h c (by simp [acceptedBefore])
      have hrest : ∀ c' ∈ acceptedBefore rest, panicDelay c'.session = none :=
        fun c' hc' => h c' (by simp [acceptedBefore, hc'])
      simp [runServerSessions, runServer, hc, ih hrest]

theorem runServerSessions_due (pid : Int) (pending : List Nat)
    (r : Except String Accepted) (rest : Listener) (h0 : 0 ∈ pending) :
    runServerSessions pid pending (r :: rest) = ⟨[Event.accept], false, true⟩ := by
  simp [runServerSessions, h0]

theorem runServerSessions_error (pid : Int) (pending : List Nat) (e : String)
    (rest : Listener) (h0 : 0 ∉ pending) :
    runServerSessions pid pending (Except.error e :: rest) = ⟨[Event.accept], true, false⟩ := by
  simp [runServerSessions, h0]

theorem runServerSessions_ok (pid : Int) (pending : List Nat) (c : Accepted)
    (rest : Listener) (h0 : 0 ∉ pending) :
    runServerSessions pid pending (Except.ok c :: rest) =
      ⟨[Event.accept, Event.encodeConn c.conn (handshake pid), Event.serverCodec c.conn,
        Event.goServeCodec c.conn]
          ++ (runServerSessions pid
              (pending.map (fun k => k - 1) ++ (panicDelay c.session).toList) rest).events,
       (runServerSessions pid
          (pending.map (fun k => k - 1) ++ (panicDelay c.session).toList) rest).returned,
       (runServerSessions pid
          (pending.map (fun k => k - 1) ++ (panicDelay c.session).toList) rest).crashed⟩ := by
  simp [runServerSessions, h0]

theorem runServerSessions_crashed (pid : Int) (pending : List Nat) (l : Listener)
    (h : (runServerSessions pid pending l).crashed = true) :
    pending ≠ [] ∨ ∃ c ∈ acceptedBefore l, ∃ k, c.session = SessionEnd.panicked k := by
  induction l generalizing pending with
  | nil =>
    left
    intro hp
    subst hp
    simp [runServerSessions] at h
  | cons r rest ih =>
    by_cases h0 : 0 ∈ pending
    · exact Or.inl (List.ne_nil_of_mem h0)
    · cases r with
      | error e =>
        rw [runServerSessions_error pid pending e rest h0] at h
        cases h
      | ok c =>
        rw [runServerSessions_ok pid pending c rest h0] at h
        rcases ih _ h with hp | ⟨c', hc', k, hk⟩
        · cases hs : c.session with
          | panicked k => exact Or.inr ⟨c, by simp [acceptedBefore], k, hs⟩
          | serving =>
            left
            intro hp'
            subst hp'
            simp [hs, panicDelay] at hp
          | closed =>
            left
            intro hp'
            subst hp'
            simp [hs, panicDelay] at hp
          | failed err =>
            left
            intro hp'
            subst hp'
            simp [hs, panicDelay] at hp
        · exact Or.inr ⟨c', by simp [acceptedBefore, hc'], k, hk⟩

theorem runServerSessions_sessions (pid : Int) (pending : List Nat) (l : Listener) :
    sessions (runServerSessions pid pending l).events <+: (acceptedBefore l).map Accepted.conn := by
  induction l generalizing pending with
  | nil => simp [runServerSessions, sessions]
  | cons r rest ih =>
    by_cases h0 : 0 ∈ pending
    · rw [runServerSessions_due pid pending r rest h0]
      simp [sessions]
    · cases r with
      | error e =>
        rw [runServerSessions_error pid pending e rest h0]
        simp [sessions]
      | ok c =>
        rw [runServerSessions_ok pid pending c rest h0]
        have := ih (pending.map (fun k => k - 1) ++ (panicDelay c.session).toList)
        simp only [sessions] at this
        simpa [sessions, acceptedBefore, List.cons_prefix_cons] using this

theorem runServerSessions_returned (pid : Int) (pending : List Nat) (l : Listener)
    (h : (runServerSessions pid pending l).returned = true) :
    (runServerSessions pid pending l).crashed = false ∧ ∃ e, Except.error e ∈ l := by
  induction l generalizing pending with
  | nil => simp [runServerSessions] at h
  | cons r rest ih =>
    by_cases h0 : 0 ∈ pending
    · rw [runServerSessions_due pid pending r rest h0] at h
      cases h
    · cases r with
      | error e =>
        rw [runServerSessions_error pid pending e rest h0]
        exact ⟨rfl, e, by simp⟩
      | ok c =>
        rw [runServerSessions_ok pid pending c rest h0] at h ⊢
        obtain ⟨h1, e, he⟩ := ih _ h
        exact ⟨h1, e, by simp [he]⟩

theorem runServerSessions_panic (pid : Int) (pending : List Nat) (l : Listener)
    (h : pending ≠ [] ∨ ∃ c ∈ acceptedBefore l, ∃ k, c.session = SessionEnd.panicked k) :
    (runServerSessions pid pending l).crashed = true
      ∨ (runServerSessions pid pending l).returned = true := by
  induction l generalizing pending with
  | nil =>
    left
    rcases h with h | ⟨c, hc, _⟩
    · cases pending with
      | nil => exact absurd rfl h
      | cons a as => rfl
    · simp [acceptedBefore] at hc
  | cons r rest ih =>
    by_cases h0 : 0 ∈ pending
    · rw [runServerSessions_due pid pending r rest h0]
      exact Or.inl rfl
    · cases r with
      | error e =>
        rw [runServerSessions_error pid pending e rest h0]
        exact Or.inr rfl
      | ok c =>
        rw [runServerSessions_ok pid pending c rest h0]
        apply ih
        rcases h with h | ⟨c', hc', k, hk⟩
        · left
          cases pending with
          | nil => exact absurd rfl h
          | cons a as => simp
        · simp only [acceptedBefore, List.mem_cons] at hc'
          rcases hc' with hc' | hc'
          · left
            subst hc'
            simp [hk, panicDelay]
          · exact Or.inr ⟨c', hc', k, hk⟩

/-- C9 fails as stated: on a listener without any `Accept` error, a panic in
the session of the first connection ends the process while the loop waits in
`Accept`, so the loop neither returns nor serves the second connection, which
it does serve when that session keeps running. -/
theorem C9_session_panic_ends_loop :
    hasAcceptError panicListener = false
      ∧ panicListener.map acceptShape = calmListener.map acceptShape
      ∧ sessions (runServerSessions 4242 [] calmListener).events = [1, 2]
      ∧ sessions (runServerSessions 4242 [] panicListener).events = [1]
      ∧ (runServerSessions 4242 [] panicListener).returned = false
      ∧ (runServerSessions 4242 [] panicListener).crashed = true :=
  ⟨by decide, by decide, by decide, by decide, by decide, by decide⟩

/-- C9, amended: for every sequence of `Accept` outcomes, the sessions started
are a prefix of the connections of the error-free prefix of the listener; the
loop returns only at an `Accept` error and then the process has not crashed; a
crash comes only from a session that panics, and a session that panics ends
the process unless an `Accept` error makes the loop return first.  When no session of an accepted
connection panics, the loop starts exactly one session per connection accepted
before the first `Accept` error, returns exactly when some `Accept` fails,
after one more `Accept` call than accepted connections, does exactly what
`runServer` alone does, and the outcomes of the handshake writes and of the
sessions do not change which sessions are started or whether it returns. -/
theorem C9_accept_loop_unless_panic (pid : Int) (l : Listener) :
    sessions (runServerSessions pid [] l).events <+: (acceptedBefore l).map Accepted.conn
      ∧ (∃ rest, l = (acceptedBefore l).map Except.ok ++ rest ∧
          (rest = [] ∨ ∃ e rest', rest = Except.error e :: rest'))
      ∧ ((runServerSessions pid [] l).returned = true →
          (runServerSessions pid [] l).crashed = false ∧ ∃ e, Except.error e ∈ l)
      ∧ ((runServerSessions pid [] l).crashed = true →
          ∃ c ∈ acceptedBefore l, ∃ k, c.session = SessionEnd.panicked k)
      ∧ ((∃ c ∈ acceptedBefore l, ∃ k, c.session = SessionEnd.panicked k) →
          (runServerSessions pid [] l).crashed = true
            ∨ (runServerSessions pid [] l).returned = true)
      ∧ ((∀ c ∈ acceptedBefore l, panicDelay c.session = none) →
          sessions (runServerSessions pid [] l).events = (acceptedBefore l).map Accepted.conn
            ∧ ((runServerSessions pid [] l).returned = true ↔ ∃ e, Except.error e ∈ l)
            ∧ (runServerSessions pid [] l).crashed = false
            ∧ acceptCalls (runServerSessions pid [] l).events = (acceptedBefore l).length + 1
            ∧ (runServerSessions pid [] l).events = (runServer pid l).events
            ∧ (∀ l' : Listener, l'.map acceptShape = l.map acceptShape →
                (∀ c ∈ acceptedBefore l', panicDelay c.session = none) →
                sessions (runServerSessions pid [] l').events
                    = sessions (runServerSessions pid [] l).events
                  ∧ (runServerSessions pid [] l').returned
                    = (runServerSessions pid [] l).returned)) := by
  refine ⟨runServerSessions_sessions pid [] l, acceptedBefore_split l,
    runServerSessions_returned pid [] l, ?_,
    fun h => runServerSessions_panic pid [] l (Or.inr h), ?_⟩
  · intro h
    rcases runServerSessions_crashed pid [] l h with hp | hc
    · exact absurd rfl hp
    · exact hc
  · intro hq
    rw [runServerSessions_quiet pid l hq]
    refine ⟨sessions_runServer pid l, ?_, rfl, acceptCalls_runServer pid l, rfl, ?_⟩
    · show (runServer pid l).returned = true ↔ _
      rw [runServer_returned]
      exact hasAcceptError_iff l
    · intro l' h hq'
      rw [runServerSessions_quiet pid l' hq']
      show sessions (runServer pid l').events = sessions (runServer pid l).events
        ∧ (runServer pid l').returned = (runServer pid l).returned
      rw [sessions_runServer, sessions_runServer, runServer_returned, runServer_returned]
      exact ⟨acceptedBefore_shape l' l h, hasAcceptError_shape l' l h⟩

/-- Two listeners that differ only in the outcomes of the handshake writes and
of the sessions, without panic: the same sessions are started. -/
theorem C9_accept_loop_unless_panic_witness :
    demoListenerOther.map acceptShape = demoListener.map acceptShape
      ∧ sessions (runServerSessions 4242 [] demoListenerOther).events
        = sessions (runServerSessions 4242 [] demoListener).events
      ∧ sessions (runServerSessions 4242 [] demoListener).events = [1, 2]
      ∧ (runServerSessions 4242 [] demoListener).returned = true
      ∧ (runServerSessions 4242 [] demoListener).crashed = false :=
  ⟨by decide,
   (((C9_accept_loop_unless_panic 4242 demoListener).2.2.2.2.2 (by decide)).2.2.2.2.2
      demoListenerOther (by decide) (by decide)).1,
   ((C9_accept_loop_unless_panic 4242 demoListener).2.2.2.2.2 (by decide)).1,
   by decide,
   ((C9_accept_loop_unless_panic 4242 demoListener).2.2.2.2.2 (by decide)).2.2.1⟩

/-! ## Starting the server -/

theorem startServer_abort {S : Type} (env : Env S) (f : Flags) (e : OsError)
    (hr : env.remove (socket f) = some e) (hn : e.isNotExist = false) :
    startServer env f =
      ⟨[Event.remove (socket f),
        Event.log "removing \"%s\": %s" [LogArg.kongPrefixPtr, LogArg.str e.msg]], true⟩ := by
  simp [startServer, hr, hn]

theorem startServer_proceed {S : Type} (env : Env S) (f : Flags)
    (hr : env.remove (socket f) = none ∨
      ∃ e, env.remove (socket f) = some e ∧ e.isNotExist = true) :
    startServer env f =
      match env.listen "unix" (socket f) with
      | Except.error err =>
        ⟨[Event.remove (socket f), Event.listen "unix" (socket f),
          Event.log "listen(\"%s\"): %s" [LogArg.str (socket f), LogArg.str err]], true⟩
      | Except.ok listener =>
        ⟨[Event.remove (socket f), Event.listen "unix" (socket f), Event.newServer,
          Event.registerName "plugin"] ++ (runServer env.pid listener).events,
         (runServer env.pid listener).returned⟩ := by
  rcases hr with hr | ⟨e, hr, hn⟩
  · simp [startServer, hr]
  · simp [startServer, hr, hn]

theorem remove_cases {S : Type} (env : Env S) (f : Flags) :
    (env.remove (socket f) = none ∨
        ∃ e, env.remove (socket f) = some e ∧ e.isNotExist = true)
      ∨ ∃ e, env.remove (socket f) = some e ∧ e.isNotExist = false := by
  cases h : env.remove (socket f) with
  | none => exact Or.inl (Or.inl rfl)
  | some e =>
    cases hn : e.isNotExist with
    | true => exact Or.inl (Or.inr ⟨e, rfl, hn⟩)
    | false => exact Or.inr ⟨e, rfl, hn⟩

theorem remove_mem_runServer (pid : Int) (l : Listener) (p : String) :
    Event.remove p ∉ (runServer pid l).events := by
  intro h
  rcases runServer_mem pid l _ h with h | ⟨c, h | h | h⟩ <;> cases h

theorem listen_mem_runServer (pid : Int) (l : Listener) (n a : String) :
    Event.listen n a ∉ (runServer pid l).events := by
  intro h
  rcases runServer_mem pid l _ h with h | ⟨c, h | h | h⟩ <;> cases h

theorem startServer_remove_mem {S : Type} (env : Env S) (f : Flags) (p : String) :
    Event.remove p ∈ (startServer env f).events ↔ p = socket f := by
  rcases remove_cases env f with hr | ⟨e, hr, hn⟩
  · rw [startServer_proceed env f hr]
    cases env.listen "unix" (socket f) with
    | error err => simp
    | ok l => simp [remove_mem_runServer]
  · rw [startServer_abort env f e hr hn]
    simp

theorem startServer_listen_mem {S : Type} (env : Env S) (f : Flags) (n a : String) :
    Event.listen n a ∈ (startServer env f).events ↔
      (n = "unix" ∧ a = socket f) ∧
        (env.remove (socket f) = none ∨
          ∃ e, env.remove (socket f) = some e ∧ e.isNotExist = true) := by
  rcases remove_cases env f with hr | ⟨e, hr, hn⟩
  · rw [startServer_proceed env f hr]
    cases env.listen "unix" (socket f) with
    | error err => simp [hr]
    | ok l => simp [listen_mem_runServer, hr]
  · rw [startServer_abort env f e hr hn]
    simp [hr, hn]

/-- C3: `startServer` calls `net.Listen` if and only if `os.Remove` succeeded
or failed with an error that `os.IsNotExist` accepts; after any other removal
error it returns having bound nothing, registered nothing and accepted nothing;
after a failed `net.Listen` it returns without registering the service and
without accepting; and when both steps pass it registers `plugin` and enters
the accept loop. -/
theorem C3_startServer_aborts {S : Type} (env : Env S) (f : Flags) :
    ((∃ n a, Event.listen n a ∈ (startServer env f).events) ↔
        (env.remove (socket f) = none ∨
          ∃ e, env.remove (socket f) = some e ∧ e.isNotExist = true))
      ∧ (∀ e, env.remove (socket f) = some e → e.isNotExist = false →
          (∀ n a, Event.listen n a ∉ (startServer env f).events)
            ∧ (∀ n, Event.registerName n ∉ (startServer env f).events)
            ∧ Event.accept ∉ (startServer env f).events
            ∧ (startServer env f).returned = true)
      ∧ (∀ err, (env.remove (socket f) = none ∨
            ∃ e, env.remove (socket f) = some e ∧ e.isNotExist = true) →
          env.listen "unix" (socket f) = Except.error err →
          (∀ n, Event.registerName n ∉ (startServer env f).events)
            ∧ Event.accept ∉ (startServer env f).events
            ∧ (startServer env f).returned = true)
      ∧ (∀ l, (env.remove (socket f) = none ∨
            ∃ e, env.remove (socket f) = some e ∧ e.isNotExist = true) →
          env.listen "unix" (socket f) = Except.ok l →
          Event.registerName "plugin" ∈ (startServer env f).events
            ∧ Event.accept ∈ (startServer env f).events) := by
  refine ⟨?_, ?_, ?_, ?_⟩
  · constructor
    · rintro ⟨n, a, h⟩
      exact ((startServer_listen_mem env f n a).1 h).2
    · intro h
      exact ⟨"unix", socket f, (startServer_listen_mem env f _ _).2 ⟨⟨rfl, rfl⟩, h⟩⟩
  · intro e hr hn
    rw [startServer_abort env f e hr hn]
    simp
  · intro err hr hl
    rw [startServer_proceed env f hr, hl]
    simp
  · intro l hr hl
    rw [startServer_proceed env f hr, hl]
    simp [accept_mem_runServer]

/-- An unremovable socket file, an unbindable address, and the normal start. -/
theorem C3_startServer_aborts_witness :
    (demoEnvNoRemove.remove (socket Flags.defaults)
        = some ⟨"permission denied", false⟩
      ∧ Event.listen "unix" (socket Flags.defaults)
          ∉ (startServer demoEnvNoRemove Flags.defaults).events)
    ∧ (demoEnvNoListen.listen "unix" (socket Flags.defaults)
        = Except.error "address already in use"
      ∧ Event.accept ∉ (startServer demoEnvNoListen Flags.defaults).events)
    ∧ (demoEnv.listen "unix" (socket Flags.defaults) = Except.ok demoListener
      ∧ Event.registerName "plugin" ∈ (startServer demoEnv Flags.defaults).events) :=
  ⟨⟨rfl, ((C3_startServer_aborts demoEnvNoRemove Flags.defaults).2.1 _ rfl rfl).1 _ _⟩,
   ⟨rfl, ((C3_startServer_aborts demoEnvNoListen Flags.defaults).2.2.1 _ (Or.inl rfl) rfl).2.1⟩,
   ⟨rfl, ((C3_startServer_aborts demoEnv Flags.defaults).2.2.2 _
      (Or.inr ⟨_, rfl, rfl⟩) rfl).1⟩⟩

theorem socket_eq (f : Flags) : socket f = f.kongPrefix ++ "/go_pluginserver.sock" := by
  unfold socket
  rw [String.append_assoc]
  rfl

/-- C4: for every prefix, the socket path is the prefix followed by
`/go_pluginserver.sock`; `startServer` always removes that path and no other,
and every `net.Listen` it makes is a unix listener on that same path. -/
theorem C4_socket_path {S : Type} (env : Env S) (f : Flags) :
    socket f = f.kongPrefix ++ "/go_pluginserver.sock"
      ∧ Event.remove (socket f) ∈ (startServer env f).events
      ∧ (∀ p, Event.remove p ∈ (startServer env f).events → p = socket f)
      ∧ (∀ n a, Event.listen n a ∈ (startServer env f).events →
          n = "unix" ∧ a = socket f) :=
  ⟨socket_eq f, (startServer_remove_mem env f _).2 rfl,
   fun p h => (startServer_remove_mem env f p).1 h,
   fun n a h => ((startServer_listen_mem env f n a).1 h).1⟩

/-- The default prefix: the stale file removed and the address bound are both
`/usr/local/kong/go_pluginserver.sock`. -/
theorem C4_socket_path_witness :
    socket Flags.defaults = "/usr/local/kong/go_pluginserver.sock"
      ∧ Event.remove "/usr/local/kong/go_pluginserver.sock"
          ∈ (startServer demoEnv Flags.defaults).events
      ∧ Event.listen "unix" "/usr/local/kong/go_pluginserver.sock"
          ∈ (startServer demoEnv Flags.defaults).events
      ∧ ("unix" = "unix" ∧
          "/usr/local/kong/go_pluginserver.sock" = socket Flags.defaults) :=
  ⟨by decide, (C4_socket_path demoEnv Flags.defaults).2.1,
   (startServer_listen_mem demoEnv Flags.defaults _ _).2
     ⟨⟨rfl, by decide⟩, Or.inr ⟨_, rfl, rfl⟩⟩,
   (C4_socket_path demoEnv Flags.defaults).2.2.2 _ _
     ((startServer_listen_mem demoEnv Flags.defaults _ _).2
       ⟨⟨rfl, by decide⟩, Or.inr ⟨_, rfl, rfl⟩⟩)⟩

/-! ## Startup checks and the dispatch in `main` -/

theorem init_exit (f : Flags) (h : f.kongPrefix = "" ∧ f.dump = "") :
    init f = [Event.usage, Event.exit 2] := by
  simp [init, h.1, h.2]

theorem init_pass (f : Flags) (h : ¬(f.kongPrefix = "" ∧ f.dump = "")) : init f = [] := by
  simp only [init, Bool.and_eq_true, beq_iff_eq]
  rw [if_neg h]

theorem exited_init_iff (f : Flags) :
    exited (init f) = true ↔ f.kongPrefix = "" ∧ f.dump = "" := by
  by_cases h : f.kongPrefix = "" ∧ f.dump = ""
  · simp [init_exit f h, exited, h]
  · simp [init_pass f h, exited, h]

theorem program_of_pass {S : Type} (env : Env S) (f : Flags)
    (h : ¬(f.kongPrefix = "" ∧ f.dump = "")) : program env f = main env f := by
  have h1 : exited (init f) = false := by
    cases hx : exited (init f) with
    | false => rfl
    | true => exact absurd ((exited_init_iff f).1 hx) h
  unfold program
  rw [if_neg (by simp [h1]), init_pass f h, List.nil_append]

theorem socket_ne_empty (f : Flags) : socket f ≠ "" := by
  intro h
  have hd := congrArg String.data h
  rw [socket_eq, String.data_append] at hd
  simp at hd

theorem socket_hasSuffix (f : Flags) : HasSuffix (socket f) "/go_pluginserver.sock" = true := by
  rw [socket_eq]
  simp only [HasSuffix, String.data_append, List.isSuffixOf_iff_suffix]
  exact List.suffix_append _ _

theorem dumpInfo_no_server {S : Type} (env : Env S) (f : Flags) :
    ∀ e ∈ dumpInfo env f, isServerEvent e = false := by
  intro e he
  simp only [dumpInfo, List.mem_append, List.mem_cons, List.mem_singleton] at he
  rcases he with (he | he) | he
  · rcases he with he | he | he
    · subst he; rfl
    · subst he; rfl
    · cases he
  · cases h : (env.GetPluginInfo (env.newServer f) f.dump PluginInfo.zero).2.2 with
    | none => simp [h] at he
    | some err =>
      simp [h] at he
      subst he; rfl
  · rcases he with he | he
    · subst he; rfl
    · cases he

theorem dumpAllLoop_no_server {S : Type} (env : Env S) (s : S) (paths : List String) :
    ∀ e ∈ (dumpAllLoop env s paths).2, isServerEvent e = false := by
  induction paths generalizing s with
  | nil => intro e he; simp [dumpAllLoop] at he
  | cons p rest ih =>
    intro e he
    simp only [dumpAllLoop, List.mem_append, List.mem_cons, List.mem_singleton] at he
    rcases he with (he | he) | he
    · rcases he with he | he
      · subst he; rfl
      · cases he
    · cases h : (env.GetPluginInfo s (pluginName p) PluginInfo.zero).2.2 with
      | none => simp [h] at he
      | some err =>
        simp [h] at he
        subst he; rfl
    · exact ih _ e he

theorem dumpAll_no_server {S : Type} (env : Env S) (f : Flags) :
    ∀ e ∈ dumpAll env f, isServerEvent e = false := by
  intro e he
  unfold dumpAll at he
  cases h : env.globJoin (env.pluginsDir (env.newServer f)) "/*.so" with
  | error err =>
    simp only [h, List.mem_cons, List.mem_singleton] at he
    rcases he with he | he | he | he
    · subst he; rfl
    · subst he; rfl
    · subst he; rfl
    · cases he
  | ok paths =>
    simp only [h, List.mem_append, List.mem_cons, List.mem_singleton] at he
    rcases he with (he | he) | he
    · rcases he with he | he | he
      · subst he; rfl
      · subst he; rfl
      · cases he
    · exact dumpAllLoop_no_server env _ paths e he
    · rcases he with he | he
      · subst he; rfl
      · cases he

theorem main_version {S : Type} (env : Env S) (f : Flags) (hv : f.showVersion = true) :
    main env f = printVersion env ++ [Event.exit 0] := by
  simp [main, hv]

theorem main_dump {S : Type} (env : Env S) (f : Flags) (hv : f.showVersion = false)
    (hd : f.dump ≠ "") : main env f = dumpInfo env f ++ [Event.exit 0] := by
  simp [main, hv, hd]

theorem main_dumpAll {S : Type} (env : Env S) (f : Flags) (hv : f.showVersion = false)
    (hd : f.dump = "") (ha : f.dumpAllPlugins = true) :
    main env f = dumpAll env f ++ [Event.exit 0] := by
  simp [main, hv, hd, ha]

theorem main_server {S : Type} (env : Env S) (f : Flags) (hv : f.showVersion = false)
    (hd : f.dump = "") (ha : f.dumpAllPlugins = false) :
    main env f =
      [Event.log ("Socket is " ++ socket f) [],
       Event.log ("Parent is alive? " ++ boolToString (isParentAlive env)) []]
        ++ (startServer env f).events := by
  simp [main, hv, hd, ha, socket_ne_empty f]

theorem main_no_server {S : Type} (env : Env S) (f : Flags)
    (h : f.showVersion = true ∨ f.dump ≠ "" ∨ f.dumpAllPlugins = true) :
    ∀ e ∈ main env f, isServerEvent e = false := by
  intro e he
  cases hv : f.showVersion with
  | true =>
    rw [main_version env f hv] at he
    simp [printVersion] at he
    rcases he with he | he <;> (subst he; rfl)
  | false =>
    by_cases hd : f.dump = ""
    · have ha : f.dumpAllPlugins = true := by
        rcases h with h | h | h
        · rw [hv] at h; cases h
        · exact absurd hd h
        · exact h
      rw [main_dumpAll env f hv hd ha] at he
      simp only [List.mem_append, List.mem_singleton] at he
      rcases he with he | he
      · exact dumpAll_no_server env f e he
      · subst he; rfl
    · rw [main_dump env f hv hd] at he
      simp only [List.mem_append, List.mem_singleton] at he
      rcases he with he | he
      · exact dumpInfo_no_server env f e he
      · subst he; rfl

theorem main_exits {S : Type} (env : Env S) (f : Flags)
    (h : f.showVersion = true ∨ f.dump ≠ "" ∨ f.dumpAllPlugins = true) :
    exited (main env f) = true := by
  cases hv : f.showVersion with
  | true => rw [main_version env f hv]; simp [exited]
  | false =>
    by_cases hd : f.dump = ""
    · have ha : f.dumpAllPlugins = true := by
        rcases h with h | h | h
        · rw [hv] at h; cases h
        · exact absurd hd h
        · exact h
      rw [main_dumpAll env f hv hd ha]; simp [exited]
    · rw [main_dump env f hv hd]; simp [exited]

/-- C2: with an empty prefix, no `-dump-plugin-info` target and
`-dump-all-plugins` set, `init` prints the usage and exits with status 2, so
the process ends there, although `main` on the same flags would run the
all-plugins dump and exit 0; with a `-dump-plugin-info` target instead, the
same empty prefix passes `init`. -/
theorem C2_init_exits_despite_dump_all :
    init ⟨"", "", true, "", false⟩ = [Event.usage, Event.exit 2]
      ∧ program demoEnv ⟨"", "", true, "", false⟩ = [Event.usage, Event.exit 2]
      ∧ main demoEnv ⟨"", "", true, "", false⟩
          = dumpAll demoEnv ⟨"", "", true, "", false⟩ ++ [Event.exit 0]
      ∧ init ⟨"", "good", false, "", false⟩ = [] :=
  ⟨rfl, rfl, rfl, rfl⟩

/-- C10: for all flags, a process whose trace contains the removal of the
socket file (the first step of `startServer`) has a non-empty prefix; with an
empty prefix the process either stops in `init` with status 2 (no
`-dump-plugin-info` target) or runs a branch of `main` that exits without any
server effect; the socket path is never empty and ends with
`/go_pluginserver.sock`; and with no version or dump flag `main` logs two lines
and runs `startServer`. -/
theorem C10_startServer_has_kongPrefix {S : Type} (env : Env S) (f : Flags) :
    (∀ p, Event.remove p ∈ program env f → f.kongPrefix ≠ "")
      ∧ (f.kongPrefix = "" →
          (f.dump = "" ∧ program env f = [Event.usage, Event.exit 2])
            ∨ (f.dump ≠ "" ∧ program env f = main env f ∧ exited (main env f) = true
                ∧ ∀ e ∈ main env f, isServerEvent e = false))
      ∧ (socket f != "") = true
      ∧ HasSuffix (socket f) "/go_pluginserver.sock" = true
      ∧ (f.showVersion = false → f.dump = "" → f.dumpAllPlugins = false →
          main env f =
            [Event.log ("Socket is " ++ socket f) [],
             Event.log ("Parent is alive? " ++ boolToString (isParentAlive env)) []]
              ++ (startServer env f).events) := by
  have key : f.kongPrefix = "" →
      (f.dump = "" ∧ program env f = [Event.usage, Event.exit 2])
        ∨ (f.dump ≠ "" ∧ program env f = main env f ∧ exited (main env f) = true
            ∧ ∀ e ∈ main env f, isServerEvent e = false) := by
    intro hp
    by_cases hd : f.dump = ""
    · left
      refine ⟨hd, ?_⟩
      have hx : exited (init f) = true := (exited_init_iff f).2 ⟨hp, hd⟩
      unfold program
      rw [if_pos hx, init_exit f ⟨hp, hd⟩]
    · right
      exact ⟨hd, program_of_pass env f (fun h => hd h.2),
        main_exits env f (Or.inr (Or.inl hd)), main_no_server env f (Or.inr (Or.inl hd))⟩
  refine ⟨?_, key, ?_, socket_hasSuffix f, main_server env f⟩
  · intro p hmem hp
    rcases key hp with ⟨_, h⟩ | ⟨_, h, _, hns⟩
    · rw [h] at hmem
      simp at hmem
    · rw [h] at hmem
      have := hns _ hmem
      simp [isServerEvent] at this
  · simp [socket_ne_empty f]

/-- The default flags reach `startServer`, on a non-empty prefix. -/
theorem C10_startServer_has_kongPrefix_witness :
    Event.remove (socket Flags.defaults) ∈ program demoEnv Flags.defaults
      ∧ Flags.defaults.kongPrefix ≠ ""
      ∧ main demoEnv Flags.defaults =
          [Event.log ("Socket is " ++ socket Flags.defaults) [],
           Event.log ("Parent is alive? " ++ boolToString (isParentAlive demoEnv)) []]
            ++ (startServer demoEnv Flags.defaults).events :=
  have hmem : Event.remove (socket Flags.defaults) ∈ program demoEnv Flags.defaults := by
    rw [program_of_pass demoEnv Flags.defaults (by decide),
      main_server demoEnv Flags.defaults rfl rfl rfl]
    simp [(startServer_remove_mem demoEnv Flags.defaults _).2 rfl]
  ⟨hmem, (C10_startServer_has_kongPrefix demoEnv Flags.defaults).1 _ hmem,
   (C10_startServer_has_kongPrefix demoEnv Flags.defaults).2.2.2.2 rfl rfl rfl⟩

/-! ## Plugin names -/

theorem afterLastSlash_append (P Q : List Char) (hP : P = [] ∨ ∃ D, P = D ++ ['/'])
    (hQ : '/' ∉ Q) : afterLastSlash (P ++ Q) = Q := by
  have hall : ∀ a ∈ Q.reverse, (fun c : Char => c != '/') a = true := by
    intro a ha
    have : a ≠ '/' := fun h => hQ (h ▸ List.mem_reverse.1 ha)
    simpa using this
  unfold afterLastSlash List.rtakeWhile
  rw [List.reverse_append, List.takeWhile_append_of_pos hall]
  rcases hP with hP | ⟨D, hP⟩
  · subst hP
    simp
  · subst hP
    simp

theorem stripTrailingSlashes_so (L : List Char) :
    stripTrailingSlashes (L ++ ['.', 's', 'o']) = L ++ ['.', 's', 'o'] := by
  have h : L ++ ['.', 's', 'o'] = (L ++ ['.', 's']) ++ ['o'] := by simp
  unfold stripTrailingSlashes
  rw [h]
  exact List.rdropWhile_concat_neg _ _ _ (by decide)

theorem Base_mk (P T : List Char) (hP : P = [] ∨ ∃ D, P = D ++ ['/']) (hT : '/' ∉ T) :
    Base (String.mk (P ++ (T ++ ['.', 's', 'o']))) = String.mk (T ++ ['.', 's', 'o']) := by
  have hne : P ++ (T ++ ['.', 's', 'o']) ≠ [] := by simp
  have hQ : '/' ∉ T ++ ['.', 's', 'o'] := by
    intro h
    rcases List.mem_append.1 h with h | h
    · exact hT h
    · revert h; decide
  have hstrip : stripTrailingSlashes (P ++ (T ++ ['.', 's', 'o'])) = P ++ (T ++ ['.', 's', 'o']) := by
    rw [← List.append_assoc]
    exact stripTrailingSlashes_so _
  unfold Base
  simp only [hne, if_false, hstrip, afterLastSlash_append P _ hP hQ]
  simp

theorem TrimSuffix_mk (T : List Char) :
    TrimSuffix (String.mk (T ++ ['.', 's', 'o'])) ".so" = String.mk T := by
  have hs : HasSuffix (String.mk (T ++ ['.', 's', 'o'])) ".so" = true := by
    simp only [HasSuffix, List.isSuffixOf_iff_suffix]
    exact List.suffix_append _ _
  unfold TrimSuffix
  rw [if_pos hs]
  congr 1
  exact List.take_left' (by simp)

theorem path_data (pre stem : String) :
    pre ++ stem ++ ".so" = String.mk (pre.data ++ (stem.data ++ ['.', 's', 'o'])) := by
  apply String.ext
  simp [String.data_append]

theorem pre_data (pre : String) (hpre : pre = "" ∨ ∃ dir : String, pre = dir ++ "/") :
    pre.data = [] ∨ ∃ D, pre.data = D ++ ['/'] := by
  rcases hpre with h | ⟨dir, h⟩
  · left; rw [h]
  · right; exact ⟨dir.data, by rw [h, String.data_append]⟩

theorem Base_so (pre stem : String) (hpre : pre = "" ∨ ∃ dir : String, pre = dir ++ "/")
    (hstem : '/' ∉ stem.data) : Base (pre ++ stem ++ ".so") = stem ++ ".so" := by
  rw [path_data, Base_mk _ _ (pre_data pre hpre) hstem]
  apply String.ext
  simp [String.data_append]

theorem pluginName_so (pre stem : String) (hpre : pre = "" ∨ ∃ dir : String, pre = dir ++ "/")
    (hstem : '/' ∉ stem.data) : pluginName (pre ++ stem ++ ".so") = stem := by
  unfold pluginName
  rw [path_data, Base_mk _ _ (pre_data pre hpre) hstem, TrimSuffix_mk]

/-! ## The all-plugins dump -/

theorem dumpAllLoop_infos {S : Type} (env : Env S) (s : S) (paths : List String) :
    (dumpAllLoop env s paths).1 = (callOutcomes env s paths).map Prod.fst := by
  induction paths generalizing s with
  | nil => rfl
  | cons p rest ih => simp [dumpAllLoop, callOutcomes, ih]

theorem callOutcomes_length {S : Type} (env : Env S) (s : S) (paths : List String) :
    (callOutcomes env s paths).length = paths.length := by
  induction paths generalizing s with
  | nil => rfl
  | cons p rest ih => simp [callOutcomes, ih]

theorem dumpAllLoop_calls {S : Type} (env : Env S) (s : S) (paths : List String) :
    getPluginInfoCalls (dumpAllLoop env s paths).2 = paths.map pluginName := by
  induction paths generalizing s with
  | nil => rfl
  | cons p rest ih =>
    have ih' := ih (env.GetPluginInfo s (pluginName p) PluginInfo.zero).1
    unfold getPluginInfoCalls at ih' ⊢
    cases h : (env.GetPluginInfo s (pluginName p) PluginInfo.zero).2.2 with
    | none => simp [dumpAllLoop, h, ih']
    | some err => simp [dumpAllLoop, h, ih']

theorem dumpAllLoop_writes {S : Type} (env : Env S) (s : S) (paths : List String) :
    jsonWrites (dumpAllLoop env s paths).2 = [] := by
  induction paths generalizing s with
  | nil => rfl
  | cons p rest ih =>
    have ih' := ih (env.GetPluginInfo s (pluginName p) PluginInfo.zero).1
    unfold jsonWrites at ih' ⊢
    cases h : (env.GetPluginInfo s (pluginName p) PluginInfo.zero).2.2 with
    | none => simp [dumpAllLoop, h, ih']
    | some err => simp [dumpAllLoop, h, ih']

theorem dumpAll_ok {S : Type} (env : Env S) (f : Flags) (paths : List String)
    (hglob : env.globJoin (env.pluginsDir (env.newServer f)) "/*.so" = Except.ok paths) :
    dumpAll env f =
      [Event.newServer, Event.glob (env.pluginsDir (env.newServer f)) "/*.so"]
        ++ (dumpAllLoop env (env.newServer f) paths).2
        ++ [Event.encodeJsonStdout ((callOutcomes env (env.newServer f) paths).map Prod.fst)] := by
  simp [dumpAll, hglob, dumpAllLoop_infos]

theorem dumpAll_calls {S : Type} (env : Env S) (f : Flags) (paths : List String)
    (hglob : env.globJoin (env.pluginsDir (env.newServer f)) "/*.so" = Except.ok paths) :
    getPluginInfoCalls (dumpAll env f) = paths.map pluginName := by
  rw [dumpAll_ok env f paths hglob]
  have h := dumpAllLoop_calls env (env.newServer f) paths
  unfold getPluginInfoCalls at h ⊢
  simp [List.filterMap_append, h]

theorem dumpAll_writes {S : Type} (env : Env S) (f : Flags) (paths : List String)
    (hglob : env.globJoin (env.pluginsDir (env.newServer f)) "/*.so" = Except.ok paths) :
    jsonWrites (dumpAll env f) = [(callOutcomes env (env.newServer f) paths).map Prod.fst] := by
  rw [dumpAll_ok env f paths hglob]
  have h := dumpAllLoop_writes env (env.newServer f) paths
  unfold jsonWrites at h ⊢
  simp [List.filterMap_append, h]

/-- C5: for every discovered list of paths and every behaviour of
`GetPluginInfo`, `dumpAll` calls `GetPluginInfo` once per path, in discovery
order, whatever earlier calls returned; it then encodes the sequence to
standard output once, as its last effect; there is one call outcome per path,
and the records of the successful calls form a subsequence, in the same order,
of the written sequence. -/
theorem C5_dumpAll_continues {S : Type} (env : Env S) (f : Flags) (paths : List String)
    (hglob : env.globJoin (env.pluginsDir (env.newServer f)) "/*.so" = Except.ok paths) :
    getPluginInfoCalls (dumpAll env f) = paths.map pluginName
      ∧ jsonWrites (dumpAll env f)
          = [(callOutcomes env (env.newServer f) paths).map Prod.fst]
      ∧ (∃ before, dumpAll env f = before ++
          [Event.encodeJsonStdout ((callOutcomes env (env.newServer f) paths).map Prod.fst)])
      ∧ (callOutcomes env (env.newServer f) paths).length = paths.length
      ∧ List.Sublist
          (((callOutcomes env (env.newServer f) paths).filter succeeded).map Prod.fst)
          ((callOutcomes env (env.newServer f) paths).map Prod.fst) := by
  refine ⟨dumpAll_calls env f paths hglob, dumpAll_writes env f paths hglob,
    ⟨_, dumpAll_ok env f paths hglob⟩, callOutcomes_length env _ paths, ?_⟩
  exact List.Sublist.map _ (List.filter_sublist _)

/-- A directory with `good.so` and `bad.so`: both are tried, in order. -/
theorem C5_dumpAll_continues_witness :
    demoEnv.globJoin (demoEnv.pluginsDir (demoEnv.newServer Flags.defaults)) "/*.so"
        = Except.ok ["/plugins/good.so", "/plugins/bad.so"]
      ∧ getPluginInfoCalls (dumpAll demoEnv Flags.defaults) = ["good", "bad"] :=
  ⟨rfl, (C5_dumpAll_continues demoEnv Flags.defaults _ rfl).1⟩

/-- C6 fails as stated: with one well-formed and one malformed module the
all-plugins dump writes two records, the second being the untouched zero
record of the failing plugin, while only one extraction succeeded. -/
theorem C6_failed_plugin_keeps_slot :
    jsonWrites (dumpAll demoEnv Flags.defaults)
        = [[⟨"good", ["access"], 1, "0.1", Value.map []⟩, PluginInfo.zero]]
      ∧ ((callOutcomes demoEnv () ["/plugins/good.so", "/plugins/bad.so"]).filter
          succeeded).length = 1
      ∧ ¬ ((jsonWrites (dumpAll demoEnv Flags.defaults)).map List.length
          = [((callOutcomes demoEnv () ["/plugins/good.so", "/plugins/bad.so"]).filter
              succeeded).length]) :=
  ⟨rfl, by decide, by decide⟩

theorem dumpAllLoop_logs {S : Type} (env : Env S) (s : S) (paths : List String) :
    logCalls (dumpAllLoop env s paths).2
      = (paths.zip (callOutcomes env s paths)).filterMap loadFailureLog := by
  induction paths generalizing s with
  | nil => rfl
  | cons p rest ih =>
    have ih' := ih (env.GetPluginInfo s (pluginName p) PluginInfo.zero).1
    unfold logCalls at ih' ⊢
    cases h : (env.GetPluginInfo s (pluginName p) PluginInfo.zero).2.2 with
    | none => simp [dumpAllLoop, callOutcomes, loadFailureLog, h, ih']
    | some err => simp [dumpAllLoop, callOutcomes, loadFailureLog, h, ih']

theorem dumpAll_logs {S : Type} (env : Env S) (f : Flags) (paths : List String)
    (hglob : env.globJoin (env.pluginsDir (env.newServer f)) "/*.so" = Except.ok paths) :
    logCalls (dumpAll env f)
      = (paths.zip (callOutcomes env (env.newServer f) paths)).filterMap loadFailureLog := by
  rw [dumpAll_ok env f paths hglob]
  have h := dumpAllLoop_logs env (env.newServer f) paths
  unfold logCalls at h ⊢
  simp [List.filterMap_append, h]

/-- C6, amended: for every discovered list of paths and every behaviour of
`GetPluginInfo`, the all-plugins dump requests every discovered plugin and
writes one sequence with exactly one record per discovered path, failing
plugins included: the record in slot `i` is the one the call for path `i` left
in a zero record, the length is the number of successes plus the number of
failures, and the log holds one line per failed call, in order, and no other. -/
theorem C6_one_record_per_path {S : Type} (env : Env S) (f : Flags) (paths : List String)
    (hglob : env.globJoin (env.pluginsDir (env.newServer f)) "/*.so" = Except.ok paths) :
    ∃ written, jsonWrites (dumpAll env f) = [written]
      ∧ written = (callOutcomes env (env.newServer f) paths).map Prod.fst
      ∧ written.length = paths.length
      ∧ written.length
          = ((callOutcomes env (env.newServer f) paths).filter succeeded).length
            + ((callOutcomes env (env.newServer f) paths).filter
                (fun o => !succeeded o)).length
      ∧ getPluginInfoCalls (dumpAll env f) = paths.map pluginName
      ∧ logCalls (dumpAll env f)
          = (paths.zip (callOutcomes env (env.newServer f) paths)).filterMap
              loadFailureLog := by
  refine ⟨_, dumpAll_writes env f paths hglob, rfl, ?_, ?_,
    dumpAll_calls env f paths hglob, dumpAll_logs env f paths hglob⟩
  · simp [callOutcomes_length]
  · rw [List.length_map]
    induction callOutcomes env (env.newServer f) paths with
    | nil => rfl
    | cons o os ih =>
      cases h : succeeded o <;> simp [List.filter_cons, h, ih] <;> omega

/-- Two discovered paths, one failing: two records are written, one line is
logged. -/
theorem C6_one_record_per_path_witness :
    demoEnv.globJoin (demoEnv.pluginsDir (demoEnv.newServer Flags.defaults)) "/*.so"
        = Except.ok ["/plugins/good.so", "/plugins/bad.so"]
      ∧ ∃ written, jsonWrites (dumpAll demoEnv Flags.defaults) = [written]
          ∧ written = (callOutcomes demoEnv (demoEnv.newServer Flags.defaults)
              ["/plugins/good.so", "/plugins/bad.so"]).map Prod.fst
          ∧ written.length = ["/plugins/good.so", "/plugins/bad.so"].length
          ∧ written.length
              = ((callOutcomes demoEnv (demoEnv.newServer Flags.defaults)
                  ["/plugins/good.so", "/plugins/bad.so"]).filter succeeded).length
                + ((callOutcomes demoEnv (demoEnv.newServer Flags.defaults)
                    ["/plugins/good.so", "/plugins/bad.so"]).filter
                    (fun o => !succeeded o)).length
          ∧ getPluginInfoCalls (dumpAll demoEnv Flags.defaults)
              = ["/plugins/good.so", "/plugins/bad.so"].map pluginName
          ∧ logCalls (dumpAll demoEnv Flags.defaults)
              = (["/plugins/good.so", "/plugins/bad.so"].zip
                  (callOutcomes demoEnv (demoEnv.newServer Flags.defaults)
                    ["/plugins/good.so", "/plugins/bad.so"])).filterMap loadFailureLog :=
  ⟨rfl, C6_one_record_per_path demoEnv Flags.defaults _ rfl⟩

/-- C7: a discovered path is a file name `stem ++ ".so"` without a slash,
alone or after a directory part ending in a slash.  For every such path the
name `dumpAll` passes to `GetPluginInfo` is `stem`: followed by `.so` it is the
last element of the path, and it holds no slash; and the names requested by
`dumpAll` are exactly these names of the discovered paths, in order. -/
theorem C7_plugin_name_is_file_stem (pre stem : String)
    (hpre : pre = "" ∨ ∃ dir : String, pre = dir ++ "/") (hstem : '/' ∉ stem.data) :
    pluginName (pre ++ stem ++ ".so") = stem
      ∧ Base (pre ++ stem ++ ".so") = stem ++ ".so"
      ∧ pluginName (pre ++ stem ++ ".so") ++ ".so" = Base (pre ++ stem ++ ".so")
      ∧ '/' ∉ (pluginName (pre ++ stem ++ ".so")).data
      ∧ (∀ (S : Type) (env : Env S) (f : Flags) (paths : List String),
          env.globJoin (env.pluginsDir (env.newServer f)) "/*.so" = Except.ok paths →
          getPluginInfoCalls (dumpAll env f) = paths.map pluginName) := by
  have h1 := pluginName_so pre stem hpre hstem
  have h2 := Base_so pre stem hpre hstem
  refine ⟨h1, h2, ?_, ?_, fun S env f paths hglob => dumpAll_calls env f paths hglob⟩
  · rw [h1, h2]
  · rw [h1]; exact hstem

/-- The path `/plugins/rate-limit.so` gives the name `rate-limit`. -/
theorem C7_plugin_name_is_file_stem_witness :
    pluginName ("/plugins/" ++ "rate-limit" ++ ".so") = "rate-limit"
      ∧ Base ("/plugins/" ++ "rate-limit" ++ ".so") = "rate-limit" ++ ".so"
      ∧ getPluginInfoCalls (dumpAll demoEnv Flags.defaults)
          = ["/plugins/good.so", "/plugins/bad.so"].map pluginName :=
  ⟨(C7_plugin_name_is_file_stem "/plugins/" "rate-limit"
      (Or.inr ⟨"/plugins", by decide⟩) (by decide)).1,
   (C7_plugin_name_is_file_stem "/plugins/" "rate-limit"
      (Or.inr ⟨"/plugins", by decide⟩) (by decide)).2.1,
   (C7_plugin_name_is_file_stem "/plugins/" "rate-limit"
      (Or.inr ⟨"/plugins", by decide⟩) (by decide)).2.2.2.2 Unit demoEnv Flags.defaults _ rfl⟩

/-! ## The dump modes of `main` -/

theorem dumpInfo_trace {S : Type} (env : Env S) (f : Flags) :
    dumpInfo env f =
      [Event.newServer, Event.getPluginInfo f.dump]
        ++ (match (env.GetPluginInfo (env.newServer f) f.dump PluginInfo.zero).2.2 with
            | some err => [Event.log "%s" [LogArg.str err]]
            | none => [])
        ++ [Event.encodeMsgpackStdout
              (env.GetPluginInfo (env.newServer f) f.dump PluginInfo.zero).2.1] :=
  rfl

theorem dumpInfo_observed {S : Type} (env : Env S) (f : Flags) :
    getPluginInfoCalls (dumpInfo env f) = [f.dump]
      ∧ msgpackWrites (dumpInfo env f)
          = [(env.GetPluginInfo (env.newServer f) f.dump PluginInfo.zero).2.1]
      ∧ jsonWrites (dumpInfo env f) = []
      ∧ exitCodes (dumpInfo env f) = []
      ∧ newServerCalls (dumpInfo env f) = 1 := by
  rw [dumpInfo_trace]
  cases (env.GetPluginInfo (env.newServer f) f.dump PluginInfo.zero).2.2 <;>
    simp [getPluginInfoCalls, msgpackWrites, jsonWrites, exitCodes, newServerCalls]

theorem dumpAllLoop_kind {S : Type} (env : Env S) (s : S) (paths : List String) :
    ∀ e ∈ (dumpAllLoop env s paths).2,
      (∃ n, e = Event.getPluginInfo n) ∨ ∃ format args, e = Event.log format args := by
  induction paths generalizing s with
  | nil => intro e he; simp [dumpAllLoop] at he
  | cons p rest ih =>
    intro e he
    simp only [dumpAllLoop, List.mem_append, List.mem_cons, List.mem_singleton] at he
    rcases he with (he | he) | he
    · rcases he with he | he
      · exact Or.inl ⟨_, he⟩
      · cases he
    · cases h : (env.GetPluginInfo s (pluginName p) PluginInfo.zero).2.2 with
      | none => simp [h] at he
      | some err =>
        simp [h] at he
        exact Or.inr ⟨_, _, he⟩
    · exact ih _ e he

theorem dumpAllLoop_observed {S : Type} (env : Env S) (s : S) (paths : List String) :
    msgpackWrites (dumpAllLoop env s paths).2 = []
      ∧ exitCodes (dumpAllLoop env s paths).2 = []
      ∧ newServerCalls (dumpAllLoop env s paths).2 = 0 := by
  have hk := dumpAllLoop_kind env s paths
  refine ⟨?_, ?_, ?_⟩
  · unfold msgpackWrites
    rw [List.filterMap_eq_nil_iff]
    intro e he
    rcases hk e he with ⟨n, h⟩ | ⟨format, args, h⟩ <;> subst h <;> rfl
  · unfold exitCodes
    rw [List.filterMap_eq_nil_iff]
    intro e he
    rcases hk e he with ⟨n, h⟩ | ⟨format, args, h⟩ <;> subst h <;> rfl
  · unfold newServerCalls
    rw [List.countP_eq_zero]
    intro e he
    rcases hk e he with ⟨n, h⟩ | ⟨format, args, h⟩ <;> subst h <;> simp

theorem dumpAll_error {S : Type} (env : Env S) (f : Flags) (err : String)
    (hglob : env.globJoin (env.pluginsDir (env.newServer f)) "/*.so" = Except.error err) :
    dumpAll env f =
      [Event.newServer, Event.glob (env.pluginsDir (env.newServer f)) "/*.so",
       Event.log "can't get plugin names from %s: %s"
         [LogArg.str (env.pluginsDir (env.newServer f)), LogArg.str err]] := by
  simp [dumpAll, hglob]

theorem dumpAll_observed {S : Type} (env : Env S) (f : Flags) :
    msgpackWrites (dumpAll env f) = []
      ∧ exitCodes (dumpAll env f) = []
      ∧ newServerCalls (dumpAll env f) = 1 := by
  cases hglob : env.globJoin (env.pluginsDir (env.newServer f)) "/*.so" with
  | error err =>
    rw [dumpAll_error env f err hglob]
    simp [msgpackWrites, exitCodes, newServerCalls]
  | ok paths =>
    rw [dumpAll_ok env f paths hglob]
    obtain ⟨h1, h2, h3⟩ := dumpAllLoop_observed env (env.newServer f) paths
    unfold msgpackWrites exitCodes newServerCalls at *
    simp [List.filterMap_append, List.countP_append, h1, h2, h3]

/-- C8: for all flags with the version flag unset and a dump mode selected,
`main` is the single-plugin dump when its target is non-empty and the
all-plugins dump otherwise, followed by exit status 0; its trace holds no
removal of the socket file, no listener, no service registration and no accept;
when `init` did not exit this is the trace of the whole process; `os.Exit` is
called once, with status 0, and `newServer` once.  With a non-empty target the
trace is `newServer`, one `GetPluginInfo` for the target, the log of its error
if any, one MessagePack write of the record, exit 0, and there is no JSON
write.  With an empty target there is no MessagePack write; when the discovery
succeeds every discovered plugin is requested and the sequence is written once
as JSON, and when it fails the error is logged and nothing is written. -/
theorem C8_dump_modes_exit_zero {S : Type} (env : Env S) (f : Flags)
    (hv : f.showVersion = false) (hd : f.dump ≠ "" ∨ f.dumpAllPlugins = true) :
    main env f = (if f.dump ≠ "" then dumpInfo env f else dumpAll env f) ++ [Event.exit 0]
      ∧ (∀ e ∈ main env f, isServerEvent e = false)
      ∧ (exited (init f) = false → program env f = main env f)
      ∧ exitCodes (main env f) = [0]
      ∧ newServerCalls (main env f) = 1
      ∧ (f.dump ≠ "" →
          main env f =
              [Event.newServer, Event.getPluginInfo f.dump]
                ++ (match (env.GetPluginInfo (env.newServer f) f.dump PluginInfo.zero).2.2 with
                    | some err => [Event.log "%s" [LogArg.str err]]
                    | none => [])
                ++ [Event.encodeMsgpackStdout
                      (env.GetPluginInfo (env.newServer f) f.dump PluginInfo.zero).2.1,
                    Event.exit 0]
            ∧ getPluginInfoCalls (main env f) = [f.dump]
            ∧ msgpackWrites (main env f)
                = [(env.GetPluginInfo (env.newServer f) f.dump PluginInfo.zero).2.1]
            ∧ jsonWrites (main env f) = [])
      ∧ (f.dump = "" →
          msgpackWrites (main env f) = []
            ∧ (∀ paths,
                env.globJoin (env.pluginsDir (env.newServer f)) "/*.so" = Except.ok paths →
                getPluginInfoCalls (main env f) = paths.map pluginName
                  ∧ jsonWrites (main env f)
                      = [(callOutcomes env (env.newServer f) paths).map Prod.fst])
            ∧ (∀ err,
                env.globJoin (env.pluginsDir (env.newServer f)) "/*.so" = Except.error err →
                main env f =
                  [Event.newServer, Event.glob (env.pluginsDir (env.newServer f)) "/*.so",
                   Event.log "can't get plugin names from %s: %s"
                     [LogArg.str (env.pluginsDir (env.newServer f)), LogArg.str err],
                   Event.exit 0])) := by
  have hmain : main env f =
      (if f.dump ≠ "" then dumpInfo env f else dumpAll env f) ++ [Event.exit 0] := by
    by_cases h : f.dump = ""
    · have ha : f.dumpAllPlugins = true := hd.resolve_left (fun h' => h' h)
      rw [main_dumpAll env f hv h ha]
      simp [h]
    · rw [main_dump env f hv h]
      simp [h]
  obtain ⟨i1, i2, i3, i4, i5⟩ := dumpInfo_observed env f
  obtain ⟨a1, a2, a3⟩ := dumpAll_observed env f
  refine ⟨hmain, main_no_server env f (Or.inr hd), ?_, ?_, ?_, ?_, ?_⟩
  · intro hx
    apply program_of_pass
    intro hp
    rw [(exited_init_iff f).2 hp] at hx
    cases hx
  · rw [hmain]
    unfold exitCodes at *
    by_cases h : f.dump = ""
    · simp [h, List.filterMap_append, a2]
    · simp [h, List.filterMap_append, i4]
  · rw [hmain]
    unfold newServerCalls at *
    by_cases h : f.dump = ""
    · simp [h, List.countP_append, a3]
    · simp [h, List.countP_append, i5]
  · intro h
    rw [hmain, if_pos h]
    unfold getPluginInfoCalls msgpackWrites jsonWrites at *
    refine ⟨?_, ?_, ?_, ?_⟩
    · rw [dumpInfo_trace]
      simp
    · simp [List.filterMap_append, i1]
    · simp [List.filterMap_append, i2]
    · simp [List.filterMap_append, i3]
  · intro h
    rw [hmain, if_neg (fun h' => h' h)]
    refine ⟨?_, ?_, ?_⟩
    · unfold msgpackWrites at *
      simp [List.filterMap_append, a1]
    · intro paths hglob
      have c1 := dumpAll_calls env f paths hglob
      have c2 := dumpAll_writes env f paths hglob
      unfold getPluginInfoCalls jsonWrites at *
      simp [List.filterMap_append, c1, c2]
    · intro err hglob
      rw [dumpAll_error env f err hglob]
      simp

/-- The all-plugins dump with the default prefix, and a single-plugin dump. -/
theorem C8_dump_modes_exit_zero_witness :
    main demoEnv ⟨"/usr/local/kong", "", true, "", false⟩
        = dumpAll demoEnv ⟨"/usr/local/kong", "", true, "", false⟩ ++ [Event.exit 0]
      ∧ program demoEnv ⟨"", "good", false, "", false⟩
        = main demoEnv ⟨"", "good", false, "", false⟩
      ∧ exitCodes (main demoEnv ⟨"", "good", false, "", false⟩) = [0]
      ∧ getPluginInfoCalls (main demoEnv ⟨"", "good", false, "", false⟩) = ["good"]
      ∧ getPluginInfoCalls (main demoEnv ⟨"/usr/local/kong", "", true, "", false⟩)
        = ["/plugins/good.so", "/plugins/bad.so"].map pluginName :=
  ⟨(C8_dump_modes_exit_zero demoEnv ⟨"/usr/local/kong", "", true, "", false⟩ rfl
      (Or.inr rfl)).1,
   (C8_dump_modes_exit_zero demoEnv ⟨"", "good", false, "", false⟩ rfl
      (Or.inl (by decide))).2.2.1 rfl,
   (C8_dump_modes_exit_zero demoEnv ⟨"", "good", false, "", false⟩ rfl
      (Or.inl (by decide))).2.2.2.1,
   ((C8_dump_modes_exit_zero demoEnv ⟨"", "good", false, "", false⟩ rfl
      (Or.inl (by decide))).2.2.2.2.2.1 (by decide)).2.1,
   (((C8_dump_modes_exit_zero demoEnv ⟨"/usr/local/kong", "", true, "", false⟩ rfl
      (Or.inr rfl)).2.2.2.2.2.2 rfl).2.1 _ rfl).1⟩

end PluginServer
